import Mathlib

/-!
Shallow embedding of `src/job.ts` (the BigQuery `Job` class): the
query-results page fetcher (`Job.getQueryResults`), the streaming wrapper
(`Job.getQueryResultsAsStream_`), the status poller (`Job.poll_`) and
`Job.cancel`, together with theorems checking the design document against
this embedding.

JavaScript conventions are modelled explicitly:
* an absent / `undefined` object field is `none`, a present field is `some v`;
* `extend(target, source)` (shallow merge, source wins) becomes the
  field-wise `extendOptions`;
* truthiness tests on strings (`if (this.location)`, `if (resp.pageToken)`)
  become `jsTruthy`, which is false for `none` and for the empty string;
  note that in JS an *array* is truthy even when empty, so truthiness of an
  array-valued field (`status.errors`, `resp.rows`) is plain presence.

The row/schema merge (`bigQuery.mergeSchemaWithRows_`) and the transport
layer live outside this file's source; they are taken as parameters of the
embedded operations, with simple concrete stand-in types for schemas, raw
rows and decoded rows.
-/

namespace BQ

/-- Stand-in for the columnar schema passed to the external row merge. -/
abbrev TableSchema := List String

/-- Stand-in for one raw (undecoded) result row. -/
abbrev RawRow := List String

/-- Stand-in for one decoded row (column name to value). -/
abbrev DecodedRow := List (String × String)

/-- A network / HTTP-layer error produced by the transport collaborator. -/
structure TransportErr where
  message : String
deriving DecidableEq, Repr

/-- One element of a `status.errors` array. -/
structure ErrorProto where
  reason : Option String := none
  message : Option String := none
deriving DecidableEq, Repr

/-- The `status` sub-document of job metadata. -/
structure JobStatus where
  state : Option String := none
  errors : Option (List ErrorProto) := none
deriving DecidableEq, Repr

/-- Job metadata as consumed by `poll_`: the code reads `metadata.status.state`
without a guard, so `status` is a mandatory field here; remaining document
fields are kept opaque. -/
structure JobMetadata where
  status : JobStatus
  extra : List (String × String) := []
deriving DecidableEq, Repr

/-- The raw API response consumed by `poll_`: the code guards on
`apiResponse.status` before reading `status.errors`, so `status` is optional
here. -/
structure ApiResponse where
  status : Option JobStatus := none
  extra : List (String × String) := []
deriving DecidableEq, Repr

/-- Options / query-string object for `getQueryResults` (lines 331-343,
399-404 of `job.ts`). `none` is an absent field. -/
structure QueryOptions where
  location : Option String := none
  pageToken : Option String := none
  maxResults : Option Nat := none
  startIndex : Option Nat := none
  timeoutMs : Option Nat := none
  autoPaginate : Option Bool := none
  maxApiCalls : Option Nat := none
deriving DecidableEq, Repr

/-- A query-results API response (`resp` in `getQueryResults`). -/
structure QueryResponse where
  jobComplete : Option Bool := none
  schema : Option TableSchema := none
  rows : Option (List RawRow) := none
  pageToken : Option String := none
deriving DecidableEq, Repr

/-- Field override used by shallow `extend`: the source's field when present,
otherwise the target's. -/
def ovr {α : Type} (src base : Option α) : Option α :=
  match src with
  | some v => some v
  | none => base

/-- Shallow `extend(base, src)` on options objects: every field of `src`
that is present overrides the corresponding field of `base`. -/
def extendOptions (base src : QueryOptions) : QueryOptions where
  location := ovr src.location base.location
  pageToken := ovr src.pageToken base.pageToken
  maxResults := ovr src.maxResults base.maxResults
  startIndex := ovr src.startIndex base.startIndex
  timeoutMs := ovr src.timeoutMs base.timeoutMs
  autoPaginate := ovr src.autoPaginate base.autoPaginate
  maxApiCalls := ovr src.maxApiCalls base.maxApiCalls

/-- JavaScript truthiness of an optional string: `undefined` and `""` are
falsy, every other string is truthy. -/
def jsTruthy : Option String → Bool
  | some s => s != ""
  | none => false

/-- Construction options of a `Job` (lines 83-87, 233-235). -/
structure JobOptions where
  location : Option String := none
deriving DecidableEq, Repr

/-- A job handle: id plus the location captured at construction. -/
structure Job where
  id : String
  location : Option String := none
deriving DecidableEq, Repr

/-- The constructor's treatment of `options.location`: it is stored only when
`options && options.location` is truthy (lines 83-87, 233-235), so a stored
location is never the empty string. -/
def Job.make (id : String) (options : Option JobOptions) : Job where
  id := id
  location :=
    match options with
    | some o =>
        match o.location with
        | some l => if l != "" then some l else none
        | none => none
    | none => none

/-- The single HTTP request issued by `getQueryResults` (lines 406-410). -/
structure ApiRequest where
  uri : String
  qs : QueryOptions
deriving DecidableEq, Repr

/-- Outcome of the transport call inside `getQueryResults`: either a
transport error (with whatever response object accompanied it) or a
successful response. -/
inductive FetchOutcome where
  | transport (e : TransportErr) (resp : Option QueryResponse)
  | ok (resp : QueryResponse)
deriving DecidableEq, Repr

/-- The four arguments `getQueryResults` hands to its callback
(`callback(err, rows, nextQuery, resp)`). -/
structure CallbackArgs where
  err : Option TransportErr
  rows : Option (List DecodedRow)
  nextQuery : Option QueryOptions
  resp : Option QueryResponse
deriving DecidableEq, Repr

/-- Lines 399-404: `options = extend({location: this.location}, options)`. -/
def locationDefaulted (job : Job) (options : QueryOptions) : QueryOptions :=
  extendOptions { location := job.location } options

/-- The one request to the results endpoint (lines 406-410):
`uri: '/queries/' + this.id`, `qs: options` after location defaulting. -/
def getQueryResultsRequest (job : Job) (options : QueryOptions) : ApiRequest where
  uri := "/queries/" ++ job.id
  qs := locationDefaulted job options

/-- All requests a single `getQueryResults` invocation issues: exactly the
one built by `getQueryResultsRequest` (the body contains a single
`this.bigQuery.request` call and no loop or retry). -/
def getQueryResultsRequests (job : Job) (options : QueryOptions) : List ApiRequest :=
  [getQueryResultsRequest job options]

/-- Lines 423-432: cursor classification. `resp.jobComplete === false` gives
a copy of the (already location-defaulted) options; otherwise a truthy
`resp.pageToken` gives a copy with `pageToken` overridden; otherwise the
cursor is `null`. -/
def nextQueryOf (options : QueryOptions) (resp : QueryResponse) : Option QueryOptions :=
  if resp.jobComplete = some false then
    some (extendOptions {} options)
  else if jsTruthy resp.pageToken then
    some (extendOptions (extendOptions {} options) { pageToken := resp.pageToken })
  else
    none

/-- Lines 393-437: the body of `Job.getQueryResults` after the
callback-shuffling prologue, as a function of the transport's behaviour.
On a transport error the callback receives `(err, null, null, resp)`; on
success rows are decoded only when both `schema` and `rows` are present,
and the cursor is classified by `nextQueryOf`. -/
def getQueryResults (job : Job)
    (merge : TableSchema → List RawRow → List DecodedRow)
    (options : QueryOptions) (fetch : ApiRequest → FetchOutcome) : CallbackArgs :=
  let req := getQueryResultsRequest job options
  match fetch req with
  | FetchOutcome.transport e resp =>
      { err := some e, rows := none, nextQuery := none, resp := resp }
  | FetchOutcome.ok resp =>
      let rows : List DecodedRow :=
        match resp.schema, resp.rows with
        | some s, some r => merge s r
        | _, _ => []
      { err := none, rows := some rows, nextQuery := nextQueryOf req.qs resp,
        resp := some resp }

/-- Lines 445-448: `options = extend({autoPaginate: false}, options)` — the
options object the streaming wrapper passes to `getQueryResults`. -/
def streamCallOptions (options : QueryOptions) : QueryOptions :=
  extendOptions { autoPaginate := some false } options

/-- Lines 445-448: `getQueryResultsAsStream_` delegates to `getQueryResults`
with the `autoPaginate`-defaulted options. -/
def getQueryResultsAsStream_ (job : Job)
    (merge : TableSchema → List RawRow → List DecodedRow)
    (options : QueryOptions) (fetch : ApiRequest → FetchOutcome) : CallbackArgs :=
  getQueryResults job merge (streamCallOptions options) fetch

/-- The error `poll_` hands to its callback: either the transport error
from `getMetadata`, unchanged, or `new util.ApiError(apiResponse.status)`. -/
inductive PollErr where
  | transport (e : TransportErr)
  | api (status : JobStatus)
deriving DecidableEq, Repr

/-- The three callback shapes of `poll_` (lines 451-455): `callback(err)`,
`callback()`, `callback(null, metadata)`. -/
inductive PollOutcome where
  | failure (e : PollErr)
  | incomplete
  | complete (metadata : JobMetadata)
deriving DecidableEq, Repr

/-- What one `getMetadata` call delivers to `poll_`'s closure:
`(err, metadata, apiResponse)`. -/
structure MetadataFetchResult where
  err : Option TransportErr
  metadata : JobMetadata
  apiResponse : ApiResponse
deriving DecidableEq, Repr

/-- Lines 461-479: `Job.poll_`. When no transport error occurred and
`apiResponse.status.errors` is present (a JS array is truthy even when
empty), the error becomes an `ApiError` over that status; any error is
reported as failure; otherwise a non-`DONE` state is incomplete and a
`DONE` state completes with the metadata. -/
def poll_ (r : MetadataFetchResult) : PollOutcome :=
  let err : Option PollErr :=
    match r.err with
    | some e => some (PollErr.transport e)
    | none =>
        match r.apiResponse.status with
        | some st => if st.errors.isSome then some (PollErr.api st) else none
        | none => none
  match err with
  | some e => PollOutcome.failure e
  | none =>
      if r.metadata.status.state ≠ some "DONE" then PollOutcome.incomplete
      else PollOutcome.complete r.metadata

/-- Query string of the cancel request: `{location: this.location}`. -/
structure CancelQs where
  location : Option String := none
deriving DecidableEq, Repr

/-- The request object `cancel` passes to `this.request` (lines 301-308). -/
structure CancelRequest where
  method : String
  uri : String
  qs : Option CancelQs
deriving DecidableEq, Repr

/-- Lines 294-309: `qs` carries the location exactly when `this.location`
is truthy; the request is a POST to `/cancel`. -/
def cancelRequest (job : Job) : CancelRequest where
  method := "POST"
  uri := "/cancel"
  qs := if jsTruthy job.location then some { location := job.location } else none

/-- Lines 294-309: `Job.cancel` issues the one cancel request and hands the
collaborator's result (acknowledgement or error) straight to the callback. -/
def cancel {α : Type} (job : Job)
    (transport : CancelRequest → Except TransportErr α) : Except TransportErr α :=
  transport (cancelRequest job)

/-- Exactly one of three propositions holds. -/
def exactlyOne (p q r : Prop) : Prop :=
  (p ∧ ¬q ∧ ¬r) ∨ (¬p ∧ q ∧ ¬r) ∨ (¬p ∧ ¬q ∧ r)

/-- Heap of JS options objects: an object is identified by its index, so
that object identity (and hence mutation of the caller's object) is
observable. `extend` always allocates its fresh target literal. -/
abbrev ObjHeap := List QueryOptions

/-- Dereference an object on the heap. -/
def heapRead (h : ObjHeap) (r : Nat) : Option QueryOptions := h.get? r

/-- Allocate a fresh object, returning the extended heap and its reference. -/
def heapAlloc (h : ObjHeap) (v : QueryOptions) : ObjHeap × Nat := (h ++ [v], h.length)

/-- What the heap-level `getQueryResults` produces: the final heap, the
reference of the options object it sent as the request query string, the
decoded rows, and the reference of the cursor object (when not `null`). -/
structure HeapResult where
  heap : ObjHeap
  reqRef : Nat
  rows : List DecodedRow
  nextQueryRef : Option Nat
deriving DecidableEq, Repr

/-- Lines 393-437 again (success path), at the level of object references:
`extend({location: this.location}, options)` allocates a fresh defaulted
copy, and a non-null `nextQuery` (`extend({}, options)` or
`extend({}, options, {pageToken})`) allocates another fresh copy; the
caller's object at `optionsRef` is only ever read. -/
def getQueryResultsHeap (job : Job)
    (merge : TableSchema → List RawRow → List DecodedRow)
    (h0 : ObjHeap) (optionsRef : Nat) (resp : QueryResponse) : HeapResult :=
  let callerOpts := (heapRead h0 optionsRef).getD {}
  let opts := extendOptions { location := job.location } callerOpts
  let p1 := heapAlloc h0 opts
  let rows : List DecodedRow :=
    match resp.schema, resp.rows with
    | some s, some r => merge s r
    | _, _ => []
  match nextQueryOf opts resp with
  | some nq =>
      let p2 := heapAlloc p1.1 nq
      { heap := p2.1, reqRef := p1.2, rows := rows, nextQueryRef := some p2.2 }
  | none =>
      { heap := p1.1, reqRef := p1.2, rows := rows, nextQueryRef := none }

/-! ### Helper lemmas -/

theorem ovr_some {α : Type} (v : α) (b : Option α) : ovr (some v) b = some v := rfl

theorem ovr_none {α : Type} (b : Option α) : ovr none b = b := rfl

theorem ovr_none_right {α : Type} (x : Option α) : ovr x none = x := by
  cases x <;> rfl

/-- Extending an empty target with an options object copies it verbatim. -/
theorem extendOptions_empty_base (o : QueryOptions) : extendOptions {} o = o := by
  cases o
  simp [extendOptions, ovr_none_right]

/-- Overriding only the page token. -/
theorem extendOptions_pageToken (o : QueryOptions) (t : String) :
    extendOptions o { pageToken := some t } = { o with pageToken := some t } := by
  cases o
  simp [extendOptions, ovr]

/-- The cursor classification, written with plain record updates. -/
theorem nextQueryOf_eq (o : QueryOptions) (resp : QueryResponse) :
    nextQueryOf o resp =
      if resp.jobComplete = some false then some o
      else if jsTruthy resp.pageToken then some { o with pageToken := resp.pageToken }
      else none := by
  unfold nextQueryOf
  by_cases hjc : resp.jobComplete = some false
  · simp [hjc, extendOptions_empty_base]
  · by_cases hpt : jsTruthy resp.pageToken
    · cases hx : resp.pageToken with
      | none => simp [jsTruthy, hx] at hpt
      | some t =>
          simp [hjc, hpt, extendOptions_empty_base, hx, extendOptions_pageToken]
    · simp [hjc, hpt]

/-- The success path of `getQueryResults`, computed. -/
theorem getQueryResults_ok_eq (job : Job)
    (merge : TableSchema → List RawRow → List DecodedRow)
    (options : QueryOptions) (resp : QueryResponse) :
    getQueryResults job merge options (fun _ => FetchOutcome.ok resp) =
      { err := none,
        rows := some (match resp.schema, resp.rows with
          | some s, some r => merge s r
          | _, _ => []),
        nextQuery := nextQueryOf (locationDefaulted job options) resp,
        resp := some resp } := rfl

/-! ### Claim theorems -/

/-- C1: for every query-results response, `getQueryResults` classifies the
continuation cursor in priority order — `jobComplete === false` gives a copy
of the location-defaulted input request; otherwise a carried (truthy)
`pageToken` gives that request with `pageToken` set to the token; otherwise
the cursor is null — and exactly one of the three outcomes holds for any
single response. -/
theorem getQueryResults_cursor_trichotomy
    (job : Job) (merge : TableSchema → List RawRow → List DecodedRow)
    (options : QueryOptions) (resp : QueryResponse) :
    exactlyOne
      (resp.jobComplete = some false ∧
        (getQueryResults job merge options (fun _ => FetchOutcome.ok resp)).nextQuery
          = some (locationDefaulted job options))
      (resp.jobComplete ≠ some false ∧ jsTruthy resp.pageToken = true ∧
        (getQueryResults job merge options (fun _ => FetchOutcome.ok resp)).nextQuery
          = some { locationDefaulted job options with pageToken := resp.pageToken })
      (resp.jobComplete ≠ some false ∧ jsTruthy resp.pageToken = false ∧
        (getQueryResults job merge options (fun _ => FetchOutcome.ok resp)).nextQuery
          = none) := by
  have hq : (getQueryResults job merge options (fun _ => FetchOutcome.ok resp)).nextQuery
      = nextQueryOf (locationDefaulted job options) resp := rfl
  rw [nextQueryOf_eq] at hq
  unfold exactlyOne
  by_cases hjc : resp.jobComplete = some false
  · refine Or.inl ⟨⟨hjc, ?_⟩, ?_, ?_⟩
    · rw [hq]; simp [hjc]
    · rintro ⟨h, -⟩; exact h hjc
    · rintro ⟨h, -⟩; exact h hjc
  · by_cases hpt : jsTruthy resp.pageToken = true
    · refine Or.inr (Or.inl ⟨?_, ⟨hjc, hpt, ?_⟩, ?_⟩)
      · rintro ⟨h, -⟩; exact hjc h
      · rw [hq]; simp [hjc, hpt]
      · rintro ⟨-, h, -⟩; rw [hpt] at h; cases h
    · have hpt' : jsTruthy resp.pageToken = false := by
        cases hb : jsTruthy resp.pageToken
        · rfl
        · exact absurd hb hpt
      refine Or.inr (Or.inr ⟨?_, ?_, ⟨hjc, hpt', ?_⟩⟩)
      · rintro ⟨h, -⟩; exact hjc h
      · rintro ⟨-, h, -⟩; exact hpt h
      · rw [hq]; simp [hjc, hpt']

/-- C1 witness: a concrete incomplete response (`jobComplete = false`) is
classified as retry-same-request. -/
theorem getQueryResults_cursor_trichotomy_witness :
    (getQueryResults { id := "j", location := some "US" } (fun _ _ => [])
        {} (fun _ => FetchOutcome.ok { jobComplete := some false })).nextQuery
      = some (locationDefaulted { id := "j", location := some "US" } {}) := by
  have h := getQueryResults_cursor_trichotomy { id := "j", location := some "US" }
      (fun _ _ => []) {} { jobComplete := some false }
  unfold exactlyOne at h
  rcases h with h | h | h
  · exact h.1.2
  · exact absurd rfl h.2.1.1
  · exact absurd rfl h.2.2.1

/-- C3 counterexample: with the handle's location set and unset on the
request, the retry cursor of an incomplete response is not the caller's
input request — it has picked up the handle's location. -/
theorem cursor_differs_from_caller_request :
    (getQueryResults { id := "job-1", location := some "US" }
        (fun _ _ => []) { autoPaginate := some false }
        (fun _ => FetchOutcome.ok { jobComplete := some false })).nextQuery
      ≠ some { autoPaginate := some false } := by decide

/-- C3 amended: in manual mode a single incomplete response yields no error,
some (possibly empty) rows, and a cursor equal to the *location-defaulted*
input request; that cursor coincides with the caller's input request exactly
when the request already set a location or the handle has none. -/
theorem cursor_is_location_defaulted_request
    (job : Job) (merge : TableSchema → List RawRow → List DecodedRow)
    (options : QueryOptions) (resp : QueryResponse)
    (hman : options.autoPaginate = some false)
    (hjc : resp.jobComplete = some false) :
    (getQueryResults job merge options (fun _ => FetchOutcome.ok resp)).err = none ∧
    (∃ rows, (getQueryResults job merge options (fun _ => FetchOutcome.ok resp)).rows
        = some rows) ∧
    (getQueryResults job merge options (fun _ => FetchOutcome.ok resp)).nextQuery
      = some (locationDefaulted job options) ∧
    (options.location.isSome = true ∨ job.location = none →
      locationDefaulted job options = options) := by
  refine ⟨rfl, ⟨_, rfl⟩, ?_, ?_⟩
  · have hq : (getQueryResults job merge options (fun _ => FetchOutcome.ok resp)).nextQuery
        = nextQueryOf (locationDefaulted job options) resp := rfl
    rw [hq, nextQueryOf_eq, if_pos hjc]
  · intro h
    obtain ⟨loc, pt, mr, si, tm, ap, mac⟩ := options
    rcases h with h | h
    · cases loc with
      | none => simp at h
      | some l => simp [locationDefaulted, extendOptions, ovr_some, ovr_none_right]
    · simp [locationDefaulted, extendOptions, h, ovr_none_right]

/-- C3 amended witness: concrete incomplete response with the handle's
location defaulted into the cursor. -/
theorem cursor_is_location_defaulted_request_witness :
    (getQueryResults { id := "j", location := some "US" } (fun _ _ => [])
        { autoPaginate := some false }
        (fun _ => FetchOutcome.ok { jobComplete := some false })).nextQuery
      = some (locationDefaulted { id := "j", location := some "US" }
          { autoPaginate := some false }) :=
  (cursor_is_location_defaulted_request { id := "j", location := some "US" }
      (fun _ _ => []) { autoPaginate := some false } { jobComplete := some false }
      rfl rfl).2.2.1

/-- C4 counterexample: a caller who sets `autoPaginate: true` in the options
given to the streaming entry point has that value passed to the internal
per-page call — `extend({autoPaginate: false}, options)` is a default, not a
force. -/
theorem stream_autoPaginate_not_forced :
    (streamCallOptions { autoPaginate := some true }).autoPaginate ≠ some false := by
  decide

/-- C4 amended: the streaming entry point delegates to `getQueryResults`
with options whose `autoPaginate` is *defaulted* to false — it becomes
`false` when the caller did not set it, while a caller-set value (true or
false) is preserved; all other fields pass through unchanged. -/
theorem stream_autoPaginate_defaulted (job : Job)
    (merge : TableSchema → List RawRow → List DecodedRow)
    (options : QueryOptions) (fetch : ApiRequest → FetchOutcome) :
    getQueryResultsAsStream_ job merge options fetch
      = getQueryResults job merge (streamCallOptions options) fetch ∧
    (options.autoPaginate = none →
      (streamCallOptions options).autoPaginate = some false) ∧
    (∀ b, options.autoPaginate = some b →
      (streamCallOptions options).autoPaginate = some b) ∧
    streamCallOptions options
      = { options with autoPaginate := some (options.autoPaginate.getD false) } := by
  obtain ⟨loc, pt, mr, si, tm, ap, mac⟩ := options
  refine ⟨rfl, ?_, ?_, ?_⟩
  · rintro rfl; rfl
  · rintro b rfl; rfl
  · cases ap <;> simp [streamCallOptions, extendOptions, ovr_some, ovr_none, ovr_none_right]

/-- C4 amended witness: with `autoPaginate` unset it is defaulted to
false, and a caller-set `true` is preserved. -/
theorem stream_autoPaginate_defaulted_witness :
    (streamCallOptions {}).autoPaginate = some false :=
  (stream_autoPaginate_defaulted { id := "j" } (fun _ _ => []) {}
      (fun _ => FetchOutcome.ok {})).2.1 rfl

/-- C5: rows are decoded through the schema/row merge only when both
`schema` and `rows` are present in the response; otherwise the callback
receives an empty row array — in either case no error. -/
theorem getQueryResults_rows_decoding
    (job : Job) (merge : TableSchema → List RawRow → List DecodedRow)
    (options : QueryOptions) (resp : QueryResponse) :
    (getQueryResults job merge options (fun _ => FetchOutcome.ok resp)).err = none ∧
    (∀ s r, resp.schema = some s → resp.rows = some r →
      (getQueryResults job merge options (fun _ => FetchOutcome.ok resp)).rows
        = some (merge s r)) ∧
    (resp.schema = none ∨ resp.rows = none →
      (getQueryResults job merge options (fun _ => FetchOutcome.ok resp)).rows
        = some []) := by
  obtain ⟨jc, sch, rws, pt⟩ := resp
  refine ⟨rfl, ?_, ?_⟩
  · rintro s r rfl rfl; rfl
  · rintro (rfl | rfl)
    · rfl
    · cases sch <;> rfl

/-- C5 witness: a concrete response carrying both schema and rows is decoded
through the supplied merge function. -/
theorem getQueryResults_rows_decoding_witness :
    (getQueryResults { id := "j" } (fun s rs => rs.map fun r => s.zip r) {}
        (fun _ => FetchOutcome.ok { schema := some ["a"], rows := some [["1"]] })).rows
      = some [[("a", "1")]] :=
  (getQueryResults_rows_decoding { id := "j" } (fun s rs => rs.map fun r => s.zip r)
      {} { schema := some ["a"], rows := some [["1"]] }).2.1 ["a"] [["1"]] rfl rfl

/-- C6: a transport error from the results fetch is surfaced verbatim —
the callback receives exactly that error, null rows, null cursor and the
accompanying response — and still only the single request was issued. -/
theorem getQueryResults_error_passthrough
    (job : Job) (merge : TableSchema → List RawRow → List DecodedRow)
    (options : QueryOptions) (fetch : ApiRequest → FetchOutcome)
    (e : TransportErr) (resp : Option QueryResponse)
    (h : fetch (getQueryResultsRequest job options) = FetchOutcome.transport e resp) :
    getQueryResults job merge options fetch
      = { err := some e, rows := none, nextQuery := none, resp := resp } ∧
    getQueryResultsRequests job options = [getQueryResultsRequest job options] := by
  constructor
  · simp only [getQueryResults]
    rw [h]
  · rfl

/-- C6 witness: a concrete transport error is handed to the callback
unchanged, with no rows and no cursor. -/
theorem getQueryResults_error_passthrough_witness :
    getQueryResults { id := "j" } (fun _ _ => []) {}
        (fun _ => FetchOutcome.transport { message := "boom" } none)
      = { err := some { message := "boom" }, rows := none, nextQuery := none,
          resp := none } ∧
    getQueryResultsRequests { id := "j" } {}
      = [getQueryResultsRequest { id := "j" } {}] :=
  getQueryResults_error_passthrough { id := "j" } (fun _ _ => []) {}
      (fun _ => FetchOutcome.transport { message := "boom" } none)
      { message := "boom" } none rfl

/-- C7: one invocation issues exactly one request to
`/queries/<job id>`, whose query string is the input request with
`location` defaulted from the job handle exactly when the request did not
set one; an explicitly set location and every other field are preserved. -/
theorem getQueryResults_single_request_location (job : Job) (options : QueryOptions) :
    getQueryResultsRequests job options = [getQueryResultsRequest job options] ∧
    (getQueryResultsRequests job options).length = 1 ∧
    (getQueryResultsRequest job options).uri = "/queries/" ++ job.id ∧
    (options.location = none →
      (getQueryResultsRequest job options).qs.location = job.location) ∧
    (∀ l, options.location = some l →
      (getQueryResultsRequest job options).qs.location = some l) ∧
    (getQueryResultsRequest job options).qs
      = { options with location := ovr options.location job.location } := by
  obtain ⟨loc, pt, mr, si, tm, ap, mac⟩ := options
  refine ⟨rfl, rfl, rfl, ?_, ?_, ?_⟩
  · rintro rfl; rfl
  · rintro l rfl; rfl
  · simp [getQueryResultsRequest, locationDefaulted, extendOptions, ovr_none_right]

/-- C7 witness: with no location on the request, the issued query string
carries the handle's location. -/
theorem getQueryResults_single_request_location_witness :
    (getQueryResultsRequest { id := "j", location := some "US" } {}).qs.location
      = some "US" :=
  (getQueryResults_single_request_location { id := "j", location := some "US" } {}).2.2.2.1
    rfl

/-- C2: on a successful metadata fetch, `poll_` reports failure with an
`ApiError` over the carried status whenever the response carries
`status.errors` (even when the state is `DONE`); otherwise it reports
incomplete for a non-`DONE` state and success with the metadata for a
`DONE` state. -/
theorem poll_outcome_classification (r : MetadataFetchResult) (hok : r.err = none) :
    (∀ st, r.apiResponse.status = some st → st.errors.isSome = true →
      poll_ r = PollOutcome.failure (PollErr.api st)) ∧
    ((∀ st, r.apiResponse.status = some st → st.errors = none) →
      r.metadata.status.state ≠ some "DONE" → poll_ r = PollOutcome.incomplete) ∧
    ((∀ st, r.apiResponse.status = some st → st.errors = none) →
      r.metadata.status.state = some "DONE" →
      poll_ r = PollOutcome.complete r.metadata) := by
  refine ⟨?_, ?_, ?_⟩
  · intro st hst herr
    simp [poll_, hok, hst, herr]
  · intro hno hstate
    cases hs : r.apiResponse.status with
    | none => simp [poll_, hok, hs, hstate]
    | some st => simp [poll_, hok, hs, hno st hs, hstate]
  · intro hno hstate
    cases hs : r.apiResponse.status with
    | none => simp [poll_, hok, hs, hstate]
    | some st => simp [poll_, hok, hs, hno st hs, hstate]

/-- C2 witness: a `DONE` response that still carries a (here empty, but
present — a JS array is truthy) `status.errors` is classified as failure,
not success. -/
theorem poll_outcome_classification_witness :
    poll_ { err := none,
            metadata := { status := { state := some "DONE" } },
            apiResponse :=
              { status := some { state := some "DONE", errors := some [] } } }
      = PollOutcome.failure (PollErr.api { state := some "DONE", errors := some [] }) :=
  (poll_outcome_classification
      { err := none,
        metadata := { status := { state := some "DONE" } },
        apiResponse := { status := some { state := some "DONE", errors := some [] } } }
      rfl).1 { state := some "DONE", errors := some [] } rfl rfl

/-- C9: a transport error from the metadata fetch is handed to the callback
unchanged, without consulting `status.errors`; an `ApiError` built from
`status.errors` only ever arises from a successful fetch. -/
theorem poll_transport_passthrough :
    (∀ (e : TransportErr) (m : JobMetadata) (a : ApiResponse),
      poll_ { err := some e, metadata := m, apiResponse := a }
        = PollOutcome.failure (PollErr.transport e)) ∧
    (∀ (r : MetadataFetchResult) (st : JobStatus),
      poll_ r = PollOutcome.failure (PollErr.api st) → r.err = none) := by
  constructor
  · intro e m a; rfl
  · intro r st h
    cases he : r.err with
    | none => rfl
    | some e =>
        rw [show poll_ r = PollOutcome.failure (PollErr.transport e) by
          simp [poll_, he]] at h
        cases h

/-- C9 witness: a concrete transport error is passed through even though the
accompanying response carries `status.errors`. -/
theorem poll_transport_passthrough_witness :
    poll_ { err := some { message := "boom" },
            metadata := { status := { state := some "DONE" } },
            apiResponse :=
              { status :=
                  some { state := some "DONE", errors := some [{ reason := some "x" }] } } }
      = PollOutcome.failure (PollErr.transport { message := "boom" }) :=
  poll_transport_passthrough.1 { message := "boom" }
    { status := { state := some "DONE" } }
    { status := some { state := some "DONE", errors := some [{ reason := some "x" }] } }

/-- A location stored by the `Job` constructor is never the empty string. -/
theorem make_location_nonempty (id : String) (o : Option JobOptions) (l : String)
    (h : (Job.make id o).location = some l) : l ≠ "" := by
  cases o with
  | none => exact absurd h (by simp [Job.make])
  | some jo =>
      cases ho : jo.location with
      | none =>
          rw [show (Job.make id (some jo)).location = none by simp [Job.make, ho]] at h
          cases h
      | some s =>
          by_cases hs : s = ""
          · rw [show (Job.make id (some jo)).location = none by
              simp [Job.make, ho, hs]] at h
            cases h
          · rw [show (Job.make id (some jo)).location = some s by
              simp [Job.make, ho, hs]] at h
            injection h with h2
            subst h2
            exact hs

/-- C8: `cancel` issues the single POST to `/cancel`, whose query string
carries the location exactly when the (constructed) job handle has one, and
hands the collaborator's acknowledgement or error back unchanged. -/
theorem cancel_request_shape (id : String) (jobOpts : Option JobOptions) :
    (cancelRequest (Job.make id jobOpts)).method = "POST" ∧
    (cancelRequest (Job.make id jobOpts)).uri = "/cancel" ∧
    (∀ l, (Job.make id jobOpts).location = some l →
      (cancelRequest (Job.make id jobOpts)).qs = some { location := some l }) ∧
    ((Job.make id jobOpts).location = none →
      (cancelRequest (Job.make id jobOpts)).qs = none) ∧
    (∀ (transport : CancelRequest → Except TransportErr JobMetadata),
      cancel (Job.make id jobOpts) transport
        = transport (cancelRequest (Job.make id jobOpts))) := by
  refine ⟨rfl, rfl, ?_, ?_, fun transport => rfl⟩
  · intro l hl
    have hne : l ≠ "" := make_location_nonempty id jobOpts l hl
    simp [cancelRequest, hl, jsTruthy, hne]
  · intro hl
    simp [cancelRequest, hl, jsTruthy]

/-- C8 witness: a handle constructed with a location sends it on the cancel
request. -/
theorem cancel_request_shape_witness :
    (cancelRequest (Job.make "j" (some { location := some "US" }))).qs
      = some { location := some "US" } :=
  (cancel_request_shape "j" (some { location := some "US" })).2.2.1 "US" rfl

/-- C10: the caller's options object is never mutated — after the call its
heap cell is field-for-field unchanged — and the defaulted request object
and any returned cursor are freshly allocated objects distinct from it. -/
theorem getQueryResults_no_caller_mutation
    (job : Job) (merge : TableSchema → List RawRow → List DecodedRow)
    (h0 : ObjHeap) (optionsRef : Nat) (resp : QueryResponse) (opts0 : QueryOptions)
    (hvalid : heapRead h0 optionsRef = some opts0) :
    heapRead (getQueryResultsHeap job merge h0 optionsRef resp).heap optionsRef
      = some opts0 ∧
    (getQueryResultsHeap job merge h0 optionsRef resp).reqRef ≠ optionsRef ∧
    (∀ nr, (getQueryResultsHeap job merge h0 optionsRef resp).nextQueryRef = some nr →
      nr ≠ optionsRef) := by
  have hlt : optionsRef < h0.length := by
    obtain ⟨hl, -⟩ := List.get?_eq_some.mp hvalid
    exact hl
  simp only [getQueryResultsHeap, heapAlloc]
  cases hnq : nextQueryOf (extendOptions { location := job.location }
      ((heapRead h0 optionsRef).getD {})) resp with
  | some nq =>
      refine ⟨?_, ?_, ?_⟩
      · show heapRead (h0 ++ [_] ++ [nq]) optionsRef = some opts0
        unfold heapRead
        rw [List.get?_append (by simp; omega), List.get?_append hlt]
        exact hvalid
      · show h0.length ≠ optionsRef
        omega
      · intro nr hnr
        have : nr = (h0 ++ [extendOptions { location := job.location }
            ((heapRead h0 optionsRef).getD {})]).length := by
          injection hnr.symm
        rw [this]
        simp
        omega
  | none =>
      refine ⟨?_, ?_, ?_⟩
      · show heapRead (h0 ++ [_]) optionsRef = some opts0
        unfold heapRead
        rw [List.get?_append hlt]
        exact hvalid
      · show h0.length ≠ optionsRef
        omega
      · intro nr hnr
        cases hnr

/-- The heap-level embedding agrees with the pure one: it computes the same
decoded rows, and the object its cursor reference points at is exactly the
pure cursor value. -/
theorem getQueryResultsHeap_agrees_with_pure (job : Job)
    (merge : TableSchema → List RawRow → List DecodedRow)
    (h0 : ObjHeap) (optionsRef : Nat) (resp : QueryResponse) (opts0 : QueryOptions)
    (hvalid : heapRead h0 optionsRef = some opts0) :
    some (getQueryResultsHeap job merge h0 optionsRef resp).rows
      = (getQueryResults job merge opts0 (fun _ => FetchOutcome.ok resp)).rows ∧
    (getQueryResultsHeap job merge h0 optionsRef resp).nextQueryRef.bind
        (heapRead (getQueryResultsHeap job merge h0 optionsRef resp).heap)
      = (getQueryResults job merge opts0 (fun _ => FetchOutcome.ok resp)).nextQuery := by
  have hrows : (getQueryResults job merge opts0 (fun _ => FetchOutcome.ok resp)).rows
      = some (match resp.schema, resp.rows with
        | some s, some r => merge s r
        | _, _ => []) := rfl
  have hnq0 : (getQueryResults job merge opts0 (fun _ => FetchOutcome.ok resp)).nextQuery
      = nextQueryOf (extendOptions { location := job.location } opts0) resp := rfl
  rw [hrows, hnq0]
  simp only [getQueryResultsHeap, heapAlloc, hvalid, Option.getD_some]
  cases hnq : nextQueryOf (extendOptions { location := job.location } opts0) resp with
  | some nq =>
      refine ⟨rfl, ?_⟩
      have key : ((h0 ++ [extendOptions { location := job.location } opts0]) ++ [nq]).get?
          ((h0 ++ [extendOptions { location := job.location } opts0]).length) = some nq :=
        List.get?_concat_length _ _
      simpa [heapRead] using key
  | none => exact ⟨rfl, rfl⟩

/-- C10 witness: a concrete heap with the caller's options at reference 0 is
unchanged at that reference after the call. -/
theorem getQueryResults_no_caller_mutation_witness :
    heapRead (getQueryResultsHeap { id := "j", location := some "US" }
        (fun _ _ => []) [{ autoPaginate := some false }] 0
        { jobComplete := some false }).heap 0
      = some { autoPaginate := some false } :=
  (getQueryResults_no_caller_mutation { id := "j", location := some "US" }
      (fun _ _ => []) [{ autoPaginate := some false }] 0 { jobComplete := some false }
      { autoPaginate := some false } rfl).1

end BQ
